import Mathlib

/-!
Verification development for the battle-royale synchronization core
(server room `BattleRoyaleRoom.ts`, client `ClientPrediction.ts`,
client shared constants `types.ts`).

The server simulation, the shoot handler, the visibility refresh, the
client reconciliation and the remote-entity interpolator are embedded
shallowly below.  Numeric conventions of the embedding:
* game positions, angles and distances are rationals; the source
  compares `Math.sqrt(d)` with a nonnegative bound `r`, which is
  embedded as the equivalent comparison of `d` with `r * r`;
* health and damage are integers (the source only ever assigns
  integral values to them);
* millisecond clock values (`Date.now()`) are integers;
* the diagonal movement normalization divides by `Math.sqrt 2`, so
  velocity components live in the ring `Q2` of numbers `a + b * sqrt 2`
  with rational `a`, `b`, represented exactly;
* the physics engine (Rapier) is external to the repository; a physics
  step is an opaque function parameter wherever a theorem needs one,
  and the positions read back from bodies are universally quantified.
-/

namespace Server

/-- Constant from `BattleRoyaleRoom.ts` line 10. -/
def MAP_SIZE : ℚ := 2000

/-- Constant from `BattleRoyaleRoom.ts` line 11. -/
def PLAYER_RADIUS : ℚ := 25

/-- Constant from `BattleRoyaleRoom.ts` line 12. -/
def PLAYER_SPEED : ℚ := 200

/-- Constant from `BattleRoyaleRoom.ts` line 13. -/
def BULLET_RADIUS : ℚ := 5

/-- Constant from `BattleRoyaleRoom.ts` line 14. -/
def BULLET_SPEED : ℚ := 1200

/-- Constant from `BattleRoyaleRoom.ts` line 15. -/
def BULLET_DAMAGE : Int := 20

/-- Constant from `BattleRoyaleRoom.ts` line 16. -/
def STARTING_HEALTH : Int := 500

/-- Constant from `BattleRoyaleRoom.ts` line 18. -/
def BULLET_MAX_DISTANCE : ℚ := 1000

/-- Constant from `BattleRoyaleRoom.ts` line 19. -/
def VIEW_DISTANCE : ℚ := 600

end Server

namespace ClientTypes

/-- Constant from client `types.ts` line 2. -/
def MAP_SIZE : ℚ := 2000

/-- Constant from client `types.ts` line 3. -/
def PLAYER_RADIUS : ℚ := 25

/-- Constant from client `types.ts` line 4. -/
def PLAYER_SPEED : ℚ := 200

/-- Constant from client `types.ts` line 5. -/
def BULLET_RADIUS : ℚ := 5

/-- Constant from client `types.ts` line 6 (the file header comment
says the constants must match the server). -/
def BULLET_SPEED : ℚ := 800

/-- Constant from client `types.ts` line 8. -/
def MAX_HEALTH : Int := 500

end ClientTypes

/-- Key flags of an input message (`keys` field). -/
structure Keys where
  w : Bool
  a : Bool
  s : Bool
  d : Bool
deriving DecidableEq

/-- Server-side `InputMessage` (seq, keys, angle). -/
structure InputMessage where
  seq : Nat
  keys : Keys
  angle : ℚ
deriving DecidableEq

/-- The `Player` schema of `BattleRoyaleRoom.ts` (lines 22-30). -/
structure Player where
  x : ℚ
  y : ℚ
  angle : ℚ
  health : Int
  velocityX : ℚ
  velocityY : ℚ
  lastProcessedSeq : Nat
deriving DecidableEq

/-- The `Bullet` schema of `BattleRoyaleRoom.ts` (lines 32-38). -/
structure Bullet where
  ownerId : String
  x : ℚ
  y : ℚ
  angle : ℚ
  speed : ℚ
deriving DecidableEq

/-- A 2D position (a Rapier body translation). -/
structure Pos where
  x : ℚ
  y : ℚ
deriving DecidableEq

/-- A `kill` broadcast payload (`BattleRoyaleRoom.ts` lines 325-328). -/
structure KillMsg where
  targetId : String
  killerId : String
deriving DecidableEq

/-- The `state.players` map, as the partial lookup function of the
`MapSchema`.  The simulation reads and writes it only through `get`
and field assignment, embedded as `Players` application and
`setPlayer`. -/
abbrev Players := String → Option Player

/-- Assignment to one entry of the players map. -/
def setPlayer (ps : Players) (sid : String) (p : Player) : Players :=
  fun s => if s = sid then some p else ps s

/-- Squared Euclidean distance.  The source computes
`Math.sqrt ((ax-bx)^2 + (ay-by)^2)` and compares it with nonnegative
bounds; every such comparison is embedded on the squares. -/
def distSq (a b : Pos) : ℚ :=
  (a.x - b.x) ^ 2 + (a.y - b.y) ^ 2

/-- Player creation in `onJoin` (`BattleRoyaleRoom.ts` lines 411-418):
spawn coordinates are random, everything else is fixed. -/
def newPlayer (x y : ℚ) : Player :=
  { x := x, y := y, angle := 0, health := Server.STARTING_HEALTH,
    velocityX := 0, velocityY := 0, lastProcessedSeq := 0 }

/-- Exact representation of `a + b * sqrt 2` with rational `a`, `b`;
used for the velocity values produced by the key normalization, whose
only irrational ingredient is `sqrt 2`. -/
structure Q2 where
  r : ℚ
  s : ℚ
deriving DecidableEq

/-- The rational `q` as a `Q2` value. -/
def Q2.ofRat (q : ℚ) : Q2 := ⟨q, 0⟩

/-- Zero velocity component. -/
def Q2.zero : Q2 := ⟨0, 0⟩

/-- `dx` accumulated from the key flags (a subtracts 1, d adds 1). -/
def dirX (k : Keys) : Int :=
  (if k.a then -1 else 0) + (if k.d then 1 else 0)

/-- `dy` accumulated from the key flags (w subtracts 1, s adds 1). -/
def dirY (k : Keys) : Int :=
  (if k.w then -1 else 0) + (if k.s then 1 else 0)

/-- The velocity the movement code passes to `setLinvel`: direction
from the key flags, diagonals normalized by `sqrt (dx^2+dy^2)`, scaled
by `PLAYER_SPEED = 200`.  Since `dx`, `dy` range over `{-1,0,1}` the
squared length is `0`, `1` or `2`; division by `sqrt 2` turns
`d * 200 / sqrt 2` into `d * 100 * sqrt 2`, an exact `Q2` value.
This code appears identically in the server input loop
(`BattleRoyaleRoom.ts` lines 234-248), in `applyInput` and in
`reconcile` of `ClientPrediction.ts`. -/
def velocityFromKeys (k : Keys) : Q2 × Q2 :=
  let dx := dirX k
  let dy := dirY k
  let lenSq := dx * dx + dy * dy
  if lenSq = 0 then (Q2.zero, Q2.zero)
  else if lenSq = 1 then (Q2.ofRat (200 * dx), Q2.ofRat (200 * dy))
  else (⟨0, 100 * dx⟩, ⟨0, 100 * dy⟩)

/-- Result of draining the pending inputs of one session: the updated
player schema entry together with the last velocity handed to the
physics body (`none` when no `setLinvel` call happened). -/
structure DrainResult where
  player : Player
  lastVel : Option (Q2 × Q2)
deriving DecidableEq

/-- One iteration of the input loop (`BattleRoyaleRoom.ts` lines
233-256): compute the velocity, call `setLinvel` on the body, copy the
angle and the seq into the player.  There is no comparison of
`input.seq` with `player.lastProcessedSeq`. -/
def applyInputStep (acc : DrainResult) (input : InputMessage) : DrainResult :=
  { player := { acc.player with
      angle := input.angle,
      lastProcessedSeq := input.seq },
    lastVel := some (velocityFromKeys input.keys) }

/-- The per-session part of the input phase (`BattleRoyaleRoom.ts`
lines 226-257): sessions without a player schema entry, without a
physics body, or with `health <= 0` are skipped; otherwise every
queued input is applied in order. -/
def drainInputs (p : Player) (hasBody : Bool) (inputs : List InputMessage) :
    DrainResult :=
  if hasBody = false ∨ p.health ≤ 0 then ⟨p, none⟩
  else inputs.foldl applyInputStep ⟨p, none⟩

/-- Result of the collision scan of one bullet against the player
bodies (`BattleRoyaleRoom.ts` lines 300-334). -/
structure ScanResult where
  players : Players
  kills : List KillMsg
  removed : Bool
deriving Inhabited

/-- The collision scan of one bullet (`BattleRoyaleRoom.ts` lines
300-334): iterate the player bodies in order, skip the owner, and on
the first body within `PLAYER_RADIUS + BULLET_RADIUS` damage the
corresponding live player (clamped at zero), emit a `kill` broadcast
when the victim reaches zero health, flag the bullet as removed and
stop (`break`). -/
def bulletScan (ownerId : String) (pos : Pos) (players : Players) :
    List (String × Pos) → ScanResult
  | [] => ⟨players, [], false⟩
  | (sid, pb) :: rest =>
    if sid = ownerId then bulletScan ownerId pos players rest
    else if distSq pos pb < (Server.PLAYER_RADIUS + Server.BULLET_RADIUS) ^ 2 then
      match players sid with
      | some p =>
        if 0 < p.health then
          let h := max 0 (p.health - Server.BULLET_DAMAGE)
          ⟨setPlayer players sid { p with health := h },
           if h ≤ 0 then [⟨sid, ownerId⟩] else [], true⟩
        else ⟨players, [], true⟩
      | none => ⟨players, [], true⟩
    else bulletScan ownerId pos players rest

/-- The data the bullet loop reads for one bullet: its id, its state
entry (`state.bullets.get`), its body translation `pos` and its stored
start position. -/
structure BulletIn where
  id : String
  bullet : Bullet
  pos : Pos
  startPos : Pos

/-- Result of the bullet loop: updated players, emitted kill
broadcasts, and the accumulated `bulletsToRemove` list. -/
structure BulletStepResult where
  players : Players
  kills : List KillMsg
  toRemove : List String

/-- Processing of one bullet in the update loop (`BattleRoyaleRoom.ts`
lines 280-340): if the distance traveled from the start position
exceeds `BULLET_MAX_DISTANCE` the bullet is marked and the scan is
skipped (`continue`); otherwise the collision scan runs, and then the
out-of-bounds check (which runs even after a hit) may mark the bullet
again. -/
def processBullet (playerBodies : List (String × Pos)) (players : Players)
    (b : BulletIn) : BulletStepResult :=
  if Server.BULLET_MAX_DISTANCE ^ 2 < distSq b.pos b.startPos then
    ⟨players, [], [b.id]⟩
  else
    let r := bulletScan b.bullet.ownerId b.pos players playerBodies
    let oob : Bool :=
      decide (Server.MAP_SIZE / 2 + 100 < |b.pos.x|) ||
      decide (Server.MAP_SIZE / 2 + 100 < |b.pos.y|)
    ⟨r.players, r.kills,
     (if r.removed then [b.id] else []) ++ (if oob then [b.id] else [])⟩

/-- The whole bullet part of one tick: fold `processBullet` over the
bullet bodies in iteration order, threading the players map and
concatenating kills and removal marks. -/
def bulletPhase (playerBodies : List (String × Pos)) (players : Players) :
    List BulletIn → BulletStepResult
  | [] => ⟨players, [], []⟩
  | b :: rest =>
    let r1 := processBullet playerBodies players b
    let r2 := bulletPhase playerBodies r1.players rest
    ⟨r2.players, r1.kills ++ r2.kills, r1.toRemove ++ r2.toRemove⟩

/-- Number of kill broadcasts naming `sid` as the victim. -/
def countKills (sid : String) (kills : List KillMsg) : Nat :=
  (kills.filter (fun k => k.targetId == sid)).length

/-- Indicator used to relate kill broadcasts to a health transition
from strictly positive to nonpositive. -/
def killInd (h0 h1 : Int) : Nat :=
  if 0 < h0 ∧ h1 ≤ 0 then 1 else 0

/-- A per-client `StateView`: the sets of player entities and bullet
entities currently subscribed for that client, as lists of ids. -/
structure StateView where
  playerIds : List String
  bulletIds : List String
deriving DecidableEq

/-- `client.view.add(bullet)` guarded by `!client.view.has(bullet)`
(`BattleRoyaleRoom.ts` lines 214-216). -/
def StateView.addBullet (v : StateView) (bid : String) : StateView :=
  if bid ∈ v.bulletIds then v else { v with bulletIds := v.bulletIds ++ [bid] }

/-- The view a client starts with in `onJoin` (lines 439-440): the
player always sees themselves. -/
def initialView (sid : String) : StateView :=
  ⟨[sid], []⟩

/-- One iteration of the bullet-visibility loop of `handleShoot`
(lines 204-217): if the player of this map entry is within
`VIEW_DISTANCE` of the spawn position (the squared-distance comparison
`distSq <= viewDistSq` is literal in the source), find the client with
that session id and add the bullet to its view. -/
def bulletViewStep (bullet : Bullet) (bulletId : String)
    (cs : List (String × StateView)) (q : String × Player) :
    List (String × StateView) :=
  let dx := bullet.x - q.2.x
  let dy := bullet.y - q.2.y
  if dx * dx + dy * dy ≤ Server.VIEW_DISTANCE * Server.VIEW_DISTANCE then
    cs.map (fun c => if c.1 = q.1 then (c.1, c.2.addBullet bulletId) else c)
  else cs

/-- The bullet-visibility loop of `handleShoot` (lines 203-218): the
step above folded over the players map. -/
def addBulletToViews (players : List (String × Player))
    (clients : List (String × StateView)) (bullet : Bullet) (bulletId : String) :
    List (String × StateView) :=
  players.foldl (bulletViewStep bullet bulletId) clients

/-- The room state read and written by `handleShoot`.  The players map
is kept as the association list underlying the `MapSchema` because
`handleShoot` also iterates it; it is read-only here. -/
structure ShootState where
  players : List (String × Player)
  clients : List (String × StateView)
  shootCooldowns : String → Option Int
  bulletIdCounter : Nat
  bullets : List (String × Bullet)

/-- `handleShoot` (`BattleRoyaleRoom.ts` lines 172-220).  `mcos` and
`msin` stand for the external `Math.cos` and `Math.sin`; `now` is the
`Date.now()` clock value.  A missing or dead shooter returns before
the cooldown is touched; a shot within 200 ms of the last admitted
shot returns before anything is touched; an admitted shot records the
cooldown, spawns the bullet and grants visibility to nearby clients. -/
def handleShoot (mcos msin : ℚ → ℚ) (st : ShootState) (now : Int)
    (sessionId : String) (ang : ℚ) : ShootState :=
  match st.players.lookup sessionId with
  | none => st
  | some player =>
    if player.health ≤ 0 then st
    else
      let lastShot := (st.shootCooldowns sessionId).getD 0
      if now - lastShot < 200 then st
      else
        let spawnOffset := Server.PLAYER_RADIUS + Server.BULLET_RADIUS + 5
        let bulletX := player.x + mcos ang * spawnOffset
        let bulletY := player.y + msin ang * spawnOffset
        let bulletId := toString st.bulletIdCounter
        let bullet : Bullet :=
          { ownerId := sessionId, x := bulletX, y := bulletY,
            angle := ang, speed := Server.BULLET_SPEED }
        { players := st.players,
          clients := addBulletToViews st.players st.clients bullet bulletId,
          shootCooldowns := fun s => if s = sessionId then some now else st.shootCooldowns s,
          bulletIdCounter := st.bulletIdCounter + 1,
          bullets := st.bullets ++ [(bulletId, bullet)] }

/-- One iteration of the add/remove loop of `updateVisibility`
(lines 373-383): a player in the candidate set `nearby` is added to
the view if absent, a player not in it is removed if present. -/
def viewStep (nearby : List String) (acc : StateView) (q : String × Player) :
    StateView :=
  if q.1 ∈ nearby then
    if q.1 ∈ acc.playerIds then acc
    else { acc with playerIds := acc.playerIds ++ [q.1] }
  else
    if q.1 ∈ acc.playerIds then
      { acc with playerIds := acc.playerIds.filter (fun i => i ≠ q.1) }
    else acc

/-- The per-client body of `updateVisibility` (lines 366-383).
`nearby` is the `nearbyIds` set of lines 369-370: the ids collected
from the external quadtree by retrieving with the `2 * VIEW_DISTANCE`
square centered on the client player.  The library documents only that
the retrieval reports the objects of every node the query rectangle
touches: a superset of the inserted rectangles overlapping the query
that can also contain players at any distance (an unsplit node reports
every inserted object).  The embedding therefore keeps the candidate
set opaque. -/
def updateClientView (nearby : List String)
    (players : List (String × Player)) (v : StateView) : StateView :=
  players.foldl (viewStep nearby) v

/-- `updateVisibility` (`BattleRoyaleRoom.ts` lines 349-385): for each
connected client with a player, recompute the player part of its view
from the candidate set the spatial index reports for that player;
clients without a player are skipped.  `retrieve` stands for the
external quadtree query of lines 366-370. -/
def updateVisibility (retrieve : Player → List String)
    (players : List (String × Player))
    (clients : List (String × StateView)) : List (String × StateView) :=
  clients.map (fun c =>
    match players.lookup c.1 with
    | none => c
    | some p => (c.1, updateClientView (retrieve p) players c.2))

/-- Client `InputState` (client `types.ts`). -/
structure InputState where
  seq : Nat
  keys : Keys
  angle : ℚ
  timestamp : Int
deriving DecidableEq

/-- The mirror physics body of `ClientPrediction`: translation and
linear velocity. -/
structure Body where
  x : Q2
  y : Q2
  vx : Q2
  vy : Q2
deriving DecidableEq

/-- The state `ClientPrediction` owns: the optional mirror body and
the input history. -/
structure PredictionState where
  playerBody : Option Body
  inputHistory : List InputState
deriving DecidableEq

/-- The `PredictedState` record returned to the renderer. -/
structure PredictedState where
  x : Q2
  y : Q2
  velocityX : Q2
  velocityY : Q2
deriving DecidableEq

/-- One iteration of the re-application loop of `reconcile`
(`ClientPrediction.ts` lines 135-152): set the body velocity from the
normalized keys times `PLAYER_SPEED`, then step the mirror physics
once.  The Rapier step is the opaque parameter `step`. -/
def reapplyInput (step : Body → Body) (b : Body) (input : InputState) : Body :=
  let v := velocityFromKeys input.keys
  step { b with vx := v.1, vy := v.2 }

/-- `reconcile` (`ClientPrediction.ts` lines 120-163): without a body,
return the server position; otherwise snap the body to the server
position with zero velocity, drop the acknowledged inputs from the
history, re-apply the rest in order and report the resulting state. -/
def reconcile (step : Body → Body) (st : PredictionState)
    (serverX serverY : ℚ) (serverSeq : Nat) : PredictionState × PredictedState :=
  match st.playerBody with
  | none => (st, ⟨Q2.ofRat serverX, Q2.ofRat serverY, Q2.zero, Q2.zero⟩)
  | some b0 =>
    let b1 : Body := { b0 with
      x := Q2.ofRat serverX, y := Q2.ofRat serverY,
      vx := Q2.zero, vy := Q2.zero }
    let hist := st.inputHistory.filter (fun input => decide (serverSeq < input.seq))
    let b2 := hist.foldl (reapplyInput step) b1
    ({ playerBody := some b2, inputHistory := hist },
     ⟨b2.x, b2.y, b2.vx, b2.vy⟩)

/-- A snapshot of the `EntityInterpolator` buffer. -/
structure Snapshot where
  x : ℚ
  y : ℚ
  angle : ℚ
  timestamp : Int
deriving DecidableEq

/-- The `{x, y, angle}` record `getInterpolatedState` returns. -/
structure LerpOut where
  x : ℚ
  y : ℚ
  angle : ℚ
deriving DecidableEq

/-- `interpolationDelay` of `EntityInterpolator` (100 ms). -/
def interpolationDelay : Int := 100

/-- Exact value of the IEEE-754 double `Math.PI`. -/
def MathPI : ℚ := 884279719003555 / 281474976710656

/-- The first wraparound loop of `lerpAngle`:
`while (diff > PI) diff -= PI * 2`. -/
def wrapDown (d : ℚ) : ℚ :=
  if h : MathPI < d then wrapDown (d - MathPI * 2) else d
termination_by (Int.ceil ((d - MathPI) / (MathPI * 2))).toNat
decreasing_by
  have hpi : (0 : ℚ) < MathPI * 2 := by norm_num [MathPI]
  have hd : (0 : ℚ) < d - MathPI := by linarith
  have h1 : (0 : ℚ) < (d - MathPI) / (MathPI * 2) := by positivity
  have h2 : (0 : Int) < Int.ceil ((d - MathPI) / (MathPI * 2)) := Int.ceil_pos.mpr h1
  have h3 : (d - MathPI * 2 - MathPI) / (MathPI * 2)
      = (d - MathPI) / (MathPI * 2) - 1 := by field_simp; ring
  rw [h3, Int.ceil_sub_one]
  omega

/-- The second wraparound loop of `lerpAngle`:
`while (diff < -PI) diff += PI * 2`. -/
def wrapUp (d : ℚ) : ℚ :=
  if h : d < -MathPI then wrapUp (d + MathPI * 2) else d
termination_by (Int.ceil ((-d - MathPI) / (MathPI * 2))).toNat
decreasing_by
  have hpi : (0 : ℚ) < MathPI * 2 := by norm_num [MathPI]
  have hd : (0 : ℚ) < -d - MathPI := by linarith
  have h1 : (0 : ℚ) < (-d - MathPI) / (MathPI * 2) := by positivity
  have h2 : (0 : Int) < Int.ceil ((-d - MathPI) / (MathPI * 2)) := Int.ceil_pos.mpr h1
  have h3 : (-(d + MathPI * 2) - MathPI) / (MathPI * 2)
      = (-d - MathPI) / (MathPI * 2) - 1 := by field_simp; ring
  rw [h3, Int.ceil_sub_one]
  omega

/-- `lerpAngle` (`ClientPrediction.ts` lines 240-246): wrap the
difference into the principal range, then lerp. -/
def lerpAngle (a b t : ℚ) : ℚ :=
  let diff := wrapUp (wrapDown (b - a))
  a + diff * t

/-- The pair-searching loop of `getInterpolatedState` (lines 215-223):
walk the buffer from the second element; at the first snapshot with
`timestamp > renderTime` return it with its predecessor; otherwise
both cursors end on the element just walked. -/
def findPair (renderTime : Int) : Snapshot → List Snapshot → Snapshot × Snapshot
  | prev, [] => (prev, prev)
  | prev, sn :: rest =>
    if renderTime < sn.timestamp then (prev, sn) else findPair renderTime sn rest

/-- `getInterpolatedState` (`ClientPrediction.ts` lines 204-238). -/
def getInterpolatedState (now : Int) (buffer : List Snapshot) : Option LerpOut :=
  if buffer.length < 2 then
    match buffer with
    | [] => none
    | sn :: _ => some ⟨sn.x, sn.y, sn.angle⟩
  else
    match buffer with
    | [] => none
    | b0 :: rest =>
      let renderTime := now - interpolationDelay
      let pr := findPair renderTime b0 rest
      let range : ℚ := (pr.2.timestamp : ℚ) - (pr.1.timestamp : ℚ)
      if range = 0 then some ⟨pr.2.x, pr.2.y, pr.2.angle⟩
      else
        let t := max 0 (min 1 (((renderTime : ℚ) - (pr.1.timestamp : ℚ)) / range))
        some ⟨pr.1.x + (pr.2.x - pr.1.x) * t,
              pr.1.y + (pr.2.y - pr.1.y) * t,
              lerpAngle pr.1.angle pr.2.angle t⟩

/-- Keys with nothing pressed. -/
def keysNone : Keys := ⟨false, false, false, false⟩

/-- Keys with only `w` pressed. -/
def keysW : Keys := ⟨true, false, false, false⟩

/-- A live player whose `lastProcessedSeq` is 5. -/
def c1Player : Player := { newPlayer 0 0 with lastProcessedSeq := 5 }

/-- A stale input: its seq 3 is below the stored `lastProcessedSeq` 5. -/
def c1Input : InputMessage := ⟨3, keysW, 1⟩

/-- An in-order queue of two inputs with seqs 6 and 7. -/
def c1Inputs : List InputMessage := [⟨6, keysW, 0⟩, ⟨7, keysNone, 0⟩]

/-- A freshly joined target player at the origin. -/
def cScanT : Player := newPlayer 0 0

/-- A players map holding only the target. -/
def cScanPlayers : Players := fun s => if s = "t" then some cScanT else none

/-- The matching body list. -/
def cScanBodies : List (String × Pos) := [("t", ⟨0, 0⟩)]

/-- A bullet of another player overlapping the target. -/
def cScanBullet : BulletIn := ⟨"0", ⟨"sh", 0, 0, 0, 1200⟩, ⟨0, 0⟩, ⟨0, 0⟩⟩

/-- A target with 20 health, one hit from death. -/
def c4T : Player := { newPlayer 0 0 with health := 20 }

/-- A players map holding the 20-health target. -/
def c4Players : Players := fun s => if s = "t" then some c4T else none

/-- A dead player. -/
def c10D : Player := { newPlayer 0 0 with health := 0 }

/-- A players map holding only the dead player. -/
def c10Players : Players := fun s => if s = "d0" then some c10D else none

/-- The matching body list for the dead player. -/
def c10Bodies : List (String × Pos) := [("d0", ⟨0, 0⟩)]

/-- A bullet of another player overlapping the dead player. -/
def c10Bullet : BulletIn := ⟨"7", ⟨"sh", 0, 0, 0, 1200⟩, ⟨0, 0⟩, ⟨0, 0⟩⟩

/-- A stand-in for the external trigonometric functions. -/
def c6Trig : ℚ → ℚ := fun _ => 1

/-- A fresh room with one live connected player and no shot on
record. -/
def c6St0 : ShootState :=
  { players := [("p1", newPlayer 0 0)],
    clients := [("p1", initialView "p1")],
    shootCooldowns := fun _ => none,
    bulletIdCounter := 0,
    bullets := [] }

/-- The room after a shot at t = 1000. -/
def c6St1 : ShootState := handleShoot c6Trig c6Trig c6St0 1000 "p1" 0

/-- The room after a further shot at t = 1150. -/
def c6St2 : ShootState := handleShoot c6Trig c6Trig c6St1 1150 "p1" 0

/-- The room after a further shot at t = 1190. -/
def c6St3 : ShootState := handleShoot c6Trig c6Trig c6St2 1190 "p1" 0

/-- A client input with seq 1. -/
def c7I1 : InputState := ⟨1, keysW, 0, 0⟩

/-- A client input with seq 3. -/
def c7I3 : InputState := ⟨3, keysW, 0, 10⟩

/-- A mirror body at the origin at rest. -/
def c7Body : Body := ⟨Q2.zero, Q2.zero, Q2.zero, Q2.zero⟩

/-- A prediction state with a body and two stored inputs. -/
def c7St : PredictionState := ⟨some c7Body, [c7I1, c7I3]⟩

/-- A player at the origin. -/
def c8A : Player := newPlayer 0 0

/-- A player at (1500, 0): Euclidean distance 1500 from `c8A`, well
beyond `VIEW_DISTANCE = 600` and outside the square query of `c8A`. -/
def c8B : Player := newPlayer 1500 0

/-- What the quadtree of the room reports for this two-player state:
with only the two 2 by 2 rectangles inserted and `maxObjects = 2`, the
root node never splits, so every retrieval returns both players
whatever the query rectangle. -/
def c8Retrieve : Player → List String := fun _ => ["A", "B"]

/-- The two players as the iteration list of the map. -/
def c8Players : List (String × Player) := [("A", c8A), ("B", c8B)]

/-- The initial view of client A. -/
def c8ViewA : StateView := initialView "A"

/-- A bullet spawned 100 units from player A. -/
def c8Bullet : Bullet := ⟨"A", 100, 0, 0, 1200⟩

/-- The client entry of A after the bullet b0 was granted to it. -/
def c8Cp : String × StateView := ("A", ⟨["A"], ["b0"]⟩)

/-- An older snapshot. -/
def c9S1 : Snapshot := ⟨0, 0, 0, 1000⟩

/-- A newer snapshot. -/
def c9S2 : Snapshot := ⟨5, 5, 1, 1100⟩

/-- A two-snapshot buffer in timestamp order. -/
def c9Buf : List Snapshot := [c9S1, c9S2]

/-- Value of the last seq applied by the input fold: the last element
of the mapped seq list, defaulting to the stored one. -/
theorem foldl_applyInputStep_lastSeq (inputs : List InputMessage)
    (acc : DrainResult) :
    (inputs.foldl applyInputStep acc).player.lastProcessedSeq
      = (inputs.map (fun i => i.seq)).getLastD acc.player.lastProcessedSeq := by
  induction inputs generalizing acc with
  | nil => rfl
  | cons i rest ih =>
    simp only [List.foldl_cons, List.map_cons, List.getLastD_cons]
    rw [ih]
    rfl

/-- The input fold never touches the health field. -/
theorem foldl_applyInputStep_health (inputs : List InputMessage)
    (acc : DrainResult) :
    (inputs.foldl applyInputStep acc).player.health = acc.player.health := by
  induction inputs generalizing acc with
  | nil => rfl
  | cons i rest ih => rw [List.foldl_cons, ih]; rfl

/-- Along a chain of non-decreasing seqs the final element dominates
the start. -/
theorem chain_le_getLastD (a : Nat) (l : List Nat)
    (h : List.Chain (· ≤ ·) a l) : a ≤ l.getLastD a := by
  induction l generalizing a with
  | nil => exact Nat.le_refl a
  | cons b t ih =>
    rcases List.chain_cons.mp h with ⟨hab, hbt⟩
    calc a ≤ b := hab
      _ ≤ t.getLastD b := ih b hbt
      _ = (b :: t).getLastD a := (List.getLastD_cons ..).symm

/-- A health value never crosses from nonpositive to zero, so the kill
indicator of an unchanged health is zero. -/
theorem killInd_self (h : Int) : killInd h h = 0 := by
  unfold killInd; split <;> omega

/-- The kill indicator splits along an intermediate health value of a
monotonically decreasing trajectory. -/
theorem killInd_trans {h0 h1 h2 : Int} (H21 : h2 ≤ h1) (H10 : h1 ≤ h0) :
    killInd h0 h2 = killInd h0 h1 + killInd h1 h2 := by
  unfold killInd; split_ifs <;> omega

/-- Kill counting distributes over concatenation of broadcast logs. -/
theorem countKills_append (sid : String) (k1 k2 : List KillMsg) :
    countKills sid (k1 ++ k2) = countKills sid k1 + countKills sid k2 := by
  simp [countKills, List.filter_append]

/-- Reading back the assigned entry. -/
theorem setPlayer_same (ps : Players) (sid : String) (p : Player) :
    setPlayer ps sid p sid = some p := by
  simp [setPlayer]

/-- Assignment leaves the other entries alone. -/
theorem setPlayer_other (ps : Players) (sid : String) (p : Player)
    (s : String) (h : s ≠ sid) : setPlayer ps sid p s = ps s := by
  simp [setPlayer, h]

/-- Unfolding of the collision scan on a nonempty body list. -/
theorem bulletScan_cons (owner : String) (pos : Pos) (players : Players)
    (sid' : String) (pb : Pos) (rest : List (String × Pos)) :
    bulletScan owner pos players ((sid', pb) :: rest)
      = if sid' = owner then bulletScan owner pos players rest
        else if distSq pos pb < (Server.PLAYER_RADIUS + Server.BULLET_RADIUS) ^ 2 then
          match players sid' with
          | some p =>
            if 0 < p.health then
              let h := max 0 (p.health - Server.BULLET_DAMAGE)
              ⟨setPlayer players sid' { p with health := h },
               if h ≤ 0 then [⟨sid', owner⟩] else [], true⟩
            else ⟨players, [], true⟩
          | none => ⟨players, [], true⟩
        else bulletScan owner pos players rest := rfl

/-- Effect of one collision scan on one player entry: the entry
survives, and either it is untouched or it was live and lost exactly
`BULLET_DAMAGE` clamped at zero; the scan emits a kill broadcast for
that player exactly when its health crosses to zero. -/
theorem bulletScan_spec (owner : String) (pos : Pos)
    (bodies : List (String × Pos)) (players : Players) (sid : String)
    (p0 : Player) (h : players sid = some p0) :
    ∃ p1, (bulletScan owner pos players bodies).players sid = some p1
      ∧ (p1 = p0 ∨ (0 < p0.health ∧
            p1 = { p0 with health := max 0 (p0.health - Server.BULLET_DAMAGE) }))
      ∧ countKills sid (bulletScan owner pos players bodies).kills
          = killInd p0.health p1.health := by
  induction bodies with
  | nil =>
    refine ⟨p0, h, Or.inl rfl, ?_⟩
    rw [killInd_self]; rfl
  | cons q rest ih =>
    obtain ⟨sid', pb⟩ := q
    by_cases howner : sid' = owner
    · rw [bulletScan_cons, if_pos howner]; exact ih
    · by_cases hhit :
        distSq pos pb < (Server.PLAYER_RADIUS + Server.BULLET_RADIUS) ^ 2
      · rcases hps' : players sid' with _ | p'
        · refine ⟨p0, ?_, Or.inl rfl, ?_⟩
          · rw [bulletScan_cons, if_neg howner, if_pos hhit, hps']
            exact h
          · rw [bulletScan_cons, if_neg howner, if_pos hhit, hps']
            rw [killInd_self]; rfl
        · by_cases halive : 0 < p'.health
          · by_cases hsid : sid = sid'
            · subst hsid
              have hp' : p' = p0 := by
                rw [h] at hps'; exact (Option.some.inj hps').symm
              subst hp'
              refine ⟨{ p' with health := max 0 (p'.health - Server.BULLET_DAMAGE) },
                ?_, Or.inr ⟨halive, rfl⟩, ?_⟩
              · rw [bulletScan_cons, if_neg howner, if_pos hhit, hps']
                simp only [if_pos halive]
                exact setPlayer_same ..
              · rw [bulletScan_cons, if_neg howner, if_pos hhit, hps']
                simp only [if_pos halive]
                by_cases hz : max 0 (p'.health - Server.BULLET_DAMAGE) ≤ 0
                · rw [if_pos hz]
                  unfold killInd
                  rw [if_pos ⟨halive, hz⟩]
                  simp [countKills]
                · rw [if_neg hz]
                  unfold killInd
                  rw [if_neg (by intro hc; exact hz hc.2)]
                  rfl
            · refine ⟨p0, ?_, Or.inl rfl, ?_⟩
              · rw [bulletScan_cons, if_neg howner, if_pos hhit, hps']
                simp only [if_pos halive]
                rw [setPlayer_other _ _ _ _ hsid]
                exact h
              · rw [bulletScan_cons, if_neg howner, if_pos hhit, hps']
                simp only [if_pos halive]
                rw [killInd_self]
                by_cases hz : max 0 (p'.health - Server.BULLET_DAMAGE) ≤ 0
                · rw [if_pos hz]
                  simp [countKills, Ne.symm hsid]
                · rw [if_neg hz]; rfl
          · refine ⟨p0, ?_, Or.inl rfl, ?_⟩
            · rw [bulletScan_cons, if_neg howner, if_pos hhit, hps']
              simp only [if_neg halive]
              exact h
            · rw [bulletScan_cons, if_neg howner, if_pos hhit, hps']
              simp only [if_neg halive]
              rw [killInd_self]; rfl
      · rw [bulletScan_cons, if_neg howner, if_neg hhit]; exact ih

/-- The collision scan never touches the entry of the bullet owner
(line 303 skips it before the distance test). -/
theorem bulletScan_owner (owner : String) (pos : Pos) (players : Players)
    (bodies : List (String × Pos)) :
    (bulletScan owner pos players bodies).players owner = players owner := by
  induction bodies with
  | nil => rfl
  | cons q rest ih =>
    obtain ⟨sid', pb⟩ := q
    by_cases howner : sid' = owner
    · rw [bulletScan_cons, if_pos howner]; exact ih
    · by_cases hhit :
        distSq pos pb < (Server.PLAYER_RADIUS + Server.BULLET_RADIUS) ^ 2
      · rcases hps' : players sid' with _ | p'
        · rw [bulletScan_cons, if_neg howner, if_pos hhit, hps']
        · by_cases halive : 0 < p'.health
          · rw [bulletScan_cons, if_neg howner, if_pos hhit, hps']
            simp only [if_pos halive]
            exact setPlayer_other _ _ _ _ (fun hh => howner hh.symm)
          · rw [bulletScan_cons, if_neg howner, if_pos hhit, hps']
            simp only [if_neg halive]
      · rw [bulletScan_cons, if_neg howner, if_neg hhit]; exact ih

/-- `processBullet` has the same per-entry effect as the scan it
wraps; the max-distance branch touches nothing. -/
theorem processBullet_spec (playerBodies : List (String × Pos))
    (players : Players) (b : BulletIn) (sid : String) (p0 : Player)
    (h : players sid = some p0) :
    ∃ p1, (processBullet playerBodies players b).players sid = some p1
      ∧ (p1 = p0 ∨ (0 < p0.health ∧
            p1 = { p0 with health := max 0 (p0.health - Server.BULLET_DAMAGE) }))
      ∧ countKills sid (processBullet playerBodies players b).kills
          = killInd p0.health p1.health := by
  unfold processBullet
  by_cases hfar : Server.BULLET_MAX_DISTANCE ^ 2 < distSq b.pos b.startPos
  · rw [if_pos hfar]
    exact ⟨p0, h, Or.inl rfl, by rw [killInd_self]; rfl⟩
  · rw [if_neg hfar]
    exact bulletScan_spec b.bullet.ownerId b.pos playerBodies players sid p0 h

/-- The health bookkeeping of one bullet step: monotone and
nonnegativity-preserving. -/
theorem stepHealth_le {p0 p1 : Player}
    (hd : p1 = p0 ∨ (0 < p0.health ∧
        p1 = { p0 with health := max 0 (p0.health - Server.BULLET_DAMAGE) })) :
    p1.health ≤ p0.health ∧ (0 ≤ p0.health → 0 ≤ p1.health) := by
  rcases hd with rfl | ⟨hp, rfl⟩
  · exact ⟨le_refl _, fun hh => hh⟩
  · refine ⟨?_, fun _ => le_max_left ..⟩
    show max 0 (p0.health - Server.BULLET_DAMAGE) ≤ p0.health
    have : (0 : Int) < Server.BULLET_DAMAGE := by decide
    exact max_le (by omega) (by omega)

/-- Unfolding of the bullet loop on a nonempty bullet list. -/
theorem bulletPhase_cons (playerBodies : List (String × Pos))
    (players : Players) (b : BulletIn) (rest : List BulletIn) :
    bulletPhase playerBodies players (b :: rest)
      = ⟨(bulletPhase playerBodies (processBullet playerBodies players b).players rest).players,
         (processBullet playerBodies players b).kills
           ++ (bulletPhase playerBodies (processBullet playerBodies players b).players rest).kills,
         (processBullet playerBodies players b).toRemove
           ++ (bulletPhase playerBodies (processBullet playerBodies players b).players rest).toRemove⟩ :=
  rfl

/-- Across the whole bullet loop of one tick, each player entry
survives, its health decreases monotonically staying nonnegative, and
the number of kill broadcasts naming it as victim is exactly the
indicator of its health crossing from positive to nonpositive. -/
theorem bulletPhase_spec (playerBodies : List (String × Pos))
    (bullets : List BulletIn) (players : Players) (sid : String)
    (p0 : Player) (h : players sid = some p0) :
    ∃ p1, (bulletPhase playerBodies players bullets).players sid = some p1
      ∧ p1.health ≤ p0.health
      ∧ (0 ≤ p0.health → 0 ≤ p1.health)
      ∧ countKills sid (bulletPhase playerBodies players bullets).kills
          = killInd p0.health p1.health := by
  induction bullets generalizing players p0 with
  | nil => exact ⟨p0, h, le_refl _, fun hh => hh, by rw [killInd_self]; rfl⟩
  | cons b rest ih =>
    obtain ⟨pm, hpm, hdisj, hcnt⟩ := processBullet_spec playerBodies players b sid p0 h
    obtain ⟨hmle, hmnn⟩ := stepHealth_le hdisj
    obtain ⟨p1, hp1, h1le, h1nn, hcnt1⟩ :=
      ih (processBullet playerBodies players b).players pm hpm
    refine ⟨p1, ?_, le_trans h1le hmle, fun h0 => h1nn (hmnn h0), ?_⟩
    · rw [bulletPhase_cons]; exact hp1
    · rw [bulletPhase_cons]
      show countKills sid ((processBullet playerBodies players b).kills ++ _)
          = killInd p0.health p1.health
      rw [countKills_append, hcnt, hcnt1]
      exact (killInd_trans h1le hmle).symm

/-- The scan reaching a dead player as its first contact: it flags the
bullet as removed but changes no player and emits no broadcast. -/
theorem bulletScan_first_contact_dead (owner : String) (pos : Pos)
    (players : Players) (sid : String) (pb : Pos)
    (post : List (String × Pos)) (p : Player)
    (hown : sid ≠ owner)
    (hhit : distSq pos pb < (Server.PLAYER_RADIUS + Server.BULLET_RADIUS) ^ 2)
    (hp : players sid = some p) (hdead : p.health ≤ 0) :
    ∀ pre : List (String × Pos),
      (∀ q ∈ pre, q.1 = owner ∨
        ¬(distSq pos q.2 < (Server.PLAYER_RADIUS + Server.BULLET_RADIUS) ^ 2)) →
      bulletScan owner pos players (pre ++ (sid, pb) :: post)
        = ⟨players, [], true⟩ := by
  intro pre
  induction pre with
  | nil =>
    intro _
    rw [List.nil_append, bulletScan_cons, if_neg hown, if_pos hhit, hp]
    simp only [if_neg (show ¬ 0 < p.health by omega)]
  | cons q pre' ih =>
    intro hpre
    have hq := hpre q (List.mem_cons_self ..)
    have hrest := fun r hr => hpre r (List.mem_cons_of_mem _ hr)
    obtain ⟨s', pb'⟩ := q
    rcases hq with hq | hq
    · rw [List.cons_append, bulletScan_cons, if_pos hq]
      exact ih hrest
    · by_cases hso : s' = owner
      · rw [List.cons_append, bulletScan_cons, if_pos hso]
        exact ih hrest
      · rw [List.cons_append, bulletScan_cons, if_neg hso, if_neg hq]
        exact ih hrest

/-- C2: the claim states that the bullet speed constant the client
uses equals the one the server uses, both 1200.  In the source the
client constant is 800 while the server launches bullets at 1200, so
the two differ; since the client file itself documents that its
constants must match the server, the code contradicts its own
documentation. -/
theorem C2_bullet_speed_mismatch :
    ClientTypes.BULLET_SPEED = 800 ∧ Server.BULLET_SPEED = 1200 ∧
      ClientTypes.BULLET_SPEED ≠ Server.BULLET_SPEED := by
  refine ⟨rfl, rfl, ?_⟩
  intro h
  exact absurd h (by decide)

/-- C1, counterexample: the server input loop has no comparison of
`input.seq` with `lastProcessedSeq`.  A live player whose
`lastProcessedSeq` is 5 receives a queued input with seq 3: the input
is applied (the facing angle changes) and `lastProcessedSeq` drops to
3, so the claimed discard and the claimed monotonicity both fail. -/
theorem C1_counterexample :
    c1Input.seq ≤ c1Player.lastProcessedSeq
    ∧ (drainInputs c1Player true [c1Input]).player.lastProcessedSeq = 3
    ∧ (drainInputs c1Player true [c1Input]).player.lastProcessedSeq
        < c1Player.lastProcessedSeq
    ∧ (drainInputs c1Player true [c1Input]).player.angle = c1Input.angle := by
  decide

/-- C1, amended: the tick applies every queued input of a live player
unconditionally in queue order, setting `lastProcessedSeq` to the seq
of each in turn, so after the tick it equals the seq of the last
queued input (or is unchanged for an empty queue); it is non-decreasing
provided the inputs arrive with non-decreasing seqs, which the ordered
transport and the strictly increasing client counter provide. -/
theorem C1_inputs_applied_unconditionally (p : Player)
    (inputs : List InputMessage) (halive : 0 < p.health) :
    (drainInputs p true inputs).player.lastProcessedSeq
        = (inputs.map (fun i => i.seq)).getLastD p.lastProcessedSeq
    ∧ (List.Chain (fun a b => a ≤ b) p.lastProcessedSeq
          (inputs.map (fun i => i.seq)) →
        p.lastProcessedSeq ≤ (drainInputs p true inputs).player.lastProcessedSeq) := by
  have hguard : ¬(true = false ∨ p.health ≤ 0) := by
    simp only [Bool.true_eq_false, false_or]
    omega
  unfold drainInputs
  rw [if_neg hguard]
  constructor
  · exact foldl_applyInputStep_lastSeq inputs ⟨p, none⟩
  · intro hchain
    rw [foldl_applyInputStep_lastSeq inputs ⟨p, none⟩]
    exact chain_le_getLastD _ _ hchain

/-- C1 witness: a live player with stored seq 5 drains the in-order
queue with seqs 6 and 7. -/
theorem C1_inputs_applied_unconditionally_witness :
    (drainInputs c1Player true c1Inputs).player.lastProcessedSeq
        = (c1Inputs.map (fun i => i.seq)).getLastD c1Player.lastProcessedSeq
    ∧ c1Player.lastProcessedSeq
        ≤ (drainInputs c1Player true c1Inputs).player.lastProcessedSeq := by
  have h := C1_inputs_applied_unconditionally c1Player c1Inputs (by decide)
  exact ⟨h.1, h.2 (List.Chain.cons (by decide) (List.Chain.cons (by decide)
    List.Chain.nil))⟩

/-- C3: a player joins with health 500; the input phase never touches
health; a single bullet-vs-player hit event decreases the health of
exactly the hit live player by `min health 20` (that is, by 20 clamped
at zero); across the whole bullet loop of a tick health never
increases and stays in [0, 500].  No other code of the room writes the
health field. -/
theorem C3_health_bounds :
    (∀ x y : ℚ, (newPlayer x y).health = 500)
    ∧ (∀ (p : Player) (hasBody : Bool) (inputs : List InputMessage),
        (drainInputs p hasBody inputs).player.health = p.health)
    ∧ (∀ (owner : String) (pos : Pos) (bodies : List (String × Pos))
        (players : Players) (sid : String) (p0 p1 : Player),
        players sid = some p0 →
        (bulletScan owner pos players bodies).players sid = some p1 →
        p1.health = p0.health ∨
          (0 < p0.health ∧
            p1.health = p0.health - min p0.health Server.BULLET_DAMAGE))
    ∧ (∀ (playerBodies : List (String × Pos)) (bullets : List BulletIn)
        (players : Players) (sid : String) (p0 p1 : Player),
        players sid = some p0 → 0 ≤ p0.health → p0.health ≤ 500 →
        (bulletPhase playerBodies players bullets).players sid = some p1 →
        0 ≤ p1.health ∧ p1.health ≤ p0.health ∧ p1.health ≤ 500) := by
  refine ⟨fun x y => rfl, ?_, ?_, ?_⟩
  · intro p hasBody inputs
    unfold drainInputs
    split
    · rfl
    · exact foldl_applyInputStep_health inputs ⟨p, none⟩
  · intro owner pos bodies players sid p0 p1 h0 h1
    obtain ⟨p1', hp1', hdisj, _⟩ := bulletScan_spec owner pos bodies players sid p0 h0
    rw [hp1'] at h1
    cases Option.some.inj h1
    rcases hdisj with rfl | ⟨hpos, rfl⟩
    · exact Or.inl rfl
    · refine Or.inr ⟨hpos, ?_⟩
      show max 0 (p0.health - Server.BULLET_DAMAGE)
          = p0.health - min p0.health Server.BULLET_DAMAGE
      have : (Server.BULLET_DAMAGE : Int) = 20 := rfl
      omega
  · intro playerBodies bullets players sid p0 p1 h0 hnn hub h1
    obtain ⟨p1', hp1', hle, hnn', _⟩ :=
      bulletPhase_spec playerBodies bullets players sid p0 h0
    rw [hp1'] at h1
    cases Option.some.inj h1
    exact ⟨hnn' hnn, hle, le_trans hle hub⟩

/-- C3 witness: instances of the four conjuncts on a concrete room
with one target. -/
theorem C3_health_bounds_witness :
    (newPlayer 1 2).health = 500
    ∧ (drainInputs (newPlayer 1 2) true c1Inputs).player.health
        = (newPlayer 1 2).health
    ∧ (({ cScanT with health := 480 } : Player).health = cScanT.health ∨
        (0 < cScanT.health ∧
          ({ cScanT with health := 480 } : Player).health
            = cScanT.health - min cScanT.health Server.BULLET_DAMAGE))
    ∧ (0 ≤ ({ cScanT with health := 480 } : Player).health
        ∧ ({ cScanT with health := 480 } : Player).health ≤ cScanT.health
        ∧ ({ cScanT with health := 480 } : Player).health ≤ 500) := by
  refine ⟨C3_health_bounds.1 1 2, C3_health_bounds.2.1 _ true c1Inputs, ?_, ?_⟩
  · refine C3_health_bounds.2.2.1 "sh" ⟨0, 0⟩ cScanBodies cScanPlayers "t"
      cScanT { cScanT with health := 480 } (by decide) ?_
    norm_num [bulletScan, cScanBodies, cScanPlayers, cScanT, newPlayer, distSq,
      setPlayer, Server.PLAYER_RADIUS, Server.BULLET_RADIUS,
      Server.BULLET_DAMAGE, Server.STARTING_HEALTH]
    decide
  · refine C3_health_bounds.2.2.2 cScanBodies [cScanBullet] cScanPlayers "t"
      cScanT { cScanT with health := 480 } (by decide) (by decide) (by decide)
      ?_
    norm_num [bulletPhase, processBullet, bulletScan, cScanBodies, cScanPlayers,
      cScanBullet, cScanT, newPlayer, distSq, setPlayer, Server.PLAYER_RADIUS,
      Server.BULLET_RADIUS, Server.BULLET_DAMAGE, Server.STARTING_HEALTH,
      Server.BULLET_MAX_DISTANCE, Server.MAP_SIZE]
    decide

/-- C4: over the bullet loop of one tick, the number of kill
broadcasts naming a player as victim is 1 exactly when its health
crossed from strictly positive to 0 during the tick and 0 otherwise;
in particular a contact with an already dead player emits nothing,
and two bullets hitting the same player in one tick yield one
broadcast for the one that crossed.  No other code of the room emits
the kill broadcast. -/
theorem C4_kill_exactly_once (playerBodies : List (String × Pos))
    (bullets : List BulletIn) (players : Players) (sid : String)
    (p0 p1 : Player) (h0 : players sid = some p0) (hnn : 0 ≤ p0.health)
    (h1 : (bulletPhase playerBodies players bullets).players sid = some p1) :
    countKills sid (bulletPhase playerBodies players bullets).kills
      = if 0 < p0.health ∧ p1.health = 0 then 1 else 0 := by
  obtain ⟨p1', hp1', hle, hnn', hcnt⟩ :=
    bulletPhase_spec playerBodies bullets players sid p0 h0
  rw [hp1'] at h1
  cases Option.some.inj h1
  rw [hcnt]
  have hk := hnn' hnn
  unfold killInd
  split_ifs <;> omega

/-- C4 witness: a 20-health target is hit once, dies, and exactly one
kill broadcast names it. -/
theorem C4_kill_exactly_once_witness :
    countKills "t" (bulletPhase cScanBodies c4Players [cScanBullet]).kills
      = if 0 < c4T.health ∧ ({ c4T with health := 0 } : Player).health = 0
        then 1 else 0 := by
  refine C4_kill_exactly_once cScanBodies [cScanBullet] c4Players "t" c4T
    { c4T with health := 0 } (by decide) (by decide) ?_
  norm_num [bulletPhase, processBullet, bulletScan, cScanBodies, c4Players,
    cScanBullet, c4T, newPlayer, distSq, setPlayer, Server.PLAYER_RADIUS,
    Server.BULLET_RADIUS, Server.BULLET_DAMAGE, Server.STARTING_HEALTH,
    Server.BULLET_MAX_DISTANCE, Server.MAP_SIZE]
  decide

/-- C5: the collision scan skips the entry whose session id equals the
bullet ownerId before any distance test, so processing a bullet leaves
the player entry of its owner exactly as it was, for every position of
the bullet and of every body. -/
theorem C5_owner_never_damaged (playerBodies : List (String × Pos))
    (players : Players) (b : BulletIn) :
    (processBullet playerBodies players b).players b.bullet.ownerId
      = players b.bullet.ownerId := by
  unfold processBullet
  by_cases hfar : Server.BULLET_MAX_DISTANCE ^ 2 < distSq b.pos b.startPos
  · rw [if_pos hfar]
  · rw [if_neg hfar]
    exact bulletScan_owner b.bullet.ownerId b.pos players playerBodies

/-- C10: a bullet whose first contact in scan order is a non-owner
player with zero health is still marked for removal in that tick, but
no player entry changes and no kill broadcast is emitted by that
contact. -/
theorem C10_dead_player_absorbs (playerBodies pre post : List (String × Pos))
    (players : Players) (b : BulletIn) (sid : String) (pb : Pos) (p : Player)
    (hsplit : playerBodies = pre ++ (sid, pb) :: post)
    (hpre : ∀ q ∈ pre, q.1 = b.bullet.ownerId ∨
        ¬(distSq b.pos q.2 < (Server.PLAYER_RADIUS + Server.BULLET_RADIUS) ^ 2))
    (hown : sid ≠ b.bullet.ownerId)
    (hhit : distSq b.pos pb < (Server.PLAYER_RADIUS + Server.BULLET_RADIUS) ^ 2)
    (hp : players sid = some p) (hdead : p.health ≤ 0)
    (hnear : ¬(Server.BULLET_MAX_DISTANCE ^ 2 < distSq b.pos b.startPos)) :
    (processBullet playerBodies players b).players = players
    ∧ (processBullet playerBodies players b).kills = []
    ∧ b.id ∈ (processBullet playerBodies players b).toRemove := by
  unfold processBullet
  rw [if_neg hnear, hsplit,
    bulletScan_first_contact_dead b.bullet.ownerId b.pos players sid pb post p
      hown hhit hp hdead pre hpre]
  refine ⟨rfl, rfl, ?_⟩
  simp

/-- C10 witness: a bullet overlapping a dead player at the origin. -/
theorem C10_dead_player_absorbs_witness :
    (processBullet c10Bodies c10Players c10Bullet).players = c10Players
    ∧ (processBullet c10Bodies c10Players c10Bullet).kills = []
    ∧ c10Bullet.id ∈ (processBullet c10Bodies c10Players c10Bullet).toRemove := by
  exact C10_dead_player_absorbs c10Bodies [] [] c10Players c10Bullet "d0"
    ⟨0, 0⟩ c10D rfl (by intro q hq; cases hq) (by decide)
    (by norm_num [distSq, c10Bullet, Server.PLAYER_RADIUS, Server.BULLET_RADIUS])
    (by decide) (by decide)
    (by norm_num [distSq, c10Bullet, Server.BULLET_MAX_DISTANCE])

/-- C6, counterexample: shots at t = 1000, 1150, 1190 from one live
player.  The shots at 1150 and 1190 are less than 200 ms apart, yet
neither spawns a bullet: both fall within the cooldown keyed to the
admitted shot at 1000, so zero (not exactly one) bullets result from
that pair. -/
theorem C6_counterexample :
    ((1190 : Int) - 1150 < 200)
    ∧ c6St1.players.lookup "p1" = some (newPlayer 0 0)
    ∧ 0 < (newPlayer 0 0).health
    ∧ c6St1.bullets.length = 1
    ∧ c6St3.bullets.length = c6St1.bullets.length := by
  refine ⟨by decide, by decide, by decide, rfl, rfl⟩

/-- C6, amended: a SHOOT within 200 ms of the last admitted shot of
the same player changes nothing; an admitted SHOOT from a live player
appends exactly one bullet and records the shot time, so of two SHOOTs
less than 200 ms apart at most one bullet is spawned, and exactly one
when the first is admitted; a SHOOT from a non-existent or dead player
changes nothing, in particular it starts no cooldown. -/
theorem C6_shoot_admission (mcos msin : ℚ → ℚ) (st : ShootState) (now : Int)
    (sessionId : String) (ang : ℚ) :
    (∀ t, st.shootCooldowns sessionId = some t → now - t < 200 →
      handleShoot mcos msin st now sessionId ang = st)
    ∧ (∀ p, st.players.lookup sessionId = some p → 0 < p.health →
        200 ≤ now - (st.shootCooldowns sessionId).getD 0 →
        (handleShoot mcos msin st now sessionId ang).bullets.length
            = st.bullets.length + 1
        ∧ (handleShoot mcos msin st now sessionId ang).shootCooldowns sessionId
            = some now)
    ∧ (st.players.lookup sessionId = none →
        handleShoot mcos msin st now sessionId ang = st)
    ∧ (∀ p, st.players.lookup sessionId = some p → p.health ≤ 0 →
        handleShoot mcos msin st now sessionId ang = st) := by
  refine ⟨?_, ?_, ?_, ?_⟩
  · intro t hc hlt
    cases hl : st.players.lookup sessionId with
    | none => simp only [handleShoot, hl]
    | some p =>
      by_cases hd : p.health ≤ 0
      · simp only [handleShoot, hl, if_pos hd]
      · simp only [handleShoot, hl, if_neg hd, hc, Option.getD_some,
          if_pos hlt]
  · intro p hl hliv hcool
    have h1 : ¬ p.health ≤ 0 := by omega
    have h2 : ¬ (now - (st.shootCooldowns sessionId).getD 0 < 200) := by omega
    constructor
    · simp only [handleShoot, hl, if_neg h1, if_neg h2]
      simp
    · simp only [handleShoot, hl, if_neg h1, if_neg h2]
      simp
  · intro hl
    simp only [handleShoot, hl]
  · intro p hl hd
    simp only [handleShoot, hl, if_pos hd]

/-- C6 witness: a first shot at t = 1000 on a fresh room is admitted
and a second at t = 1150 is dropped. -/
theorem C6_shoot_admission_witness :
    ((handleShoot c6Trig c6Trig c6St0 1000 "p1" 0).bullets.length
        = c6St0.bullets.length + 1
      ∧ (handleShoot c6Trig c6Trig c6St0 1000 "p1" 0).shootCooldowns "p1"
        = some 1000)
    ∧ handleShoot c6Trig c6Trig c6St1 1150 "p1" 0 = c6St1 := by
  constructor
  · exact (C6_shoot_admission c6Trig c6Trig c6St0 1000 "p1" 0).2.1
      (newPlayer 0 0) (by decide) (by decide) (by decide)
  · exact (C6_shoot_admission c6Trig c6Trig c6St1 1150 "p1" 0).1
      1000 (by decide) (by decide)

/-- C7: with a mirror body present, `reconcile` snaps the body to the
server position with zero velocity, keeps exactly the stored inputs
with seq greater than the acknowledged one in their original order,
and re-applies them in order, each as a velocity assignment from the
normalized keys times `PLAYER_SPEED` followed by one physics step. -/
theorem C7_reconcile_replays (step : Body → Body) (st : PredictionState)
    (b0 : Body) (sx sy : ℚ) (S : Nat) (hb : st.playerBody = some b0) :
    (reconcile step st sx sy S).1.inputHistory
        = st.inputHistory.filter (fun input => decide (S < input.seq))
    ∧ (reconcile step st sx sy S).1.inputHistory.Sublist st.inputHistory
    ∧ (∀ input, input ∈ (reconcile step st sx sy S).1.inputHistory ↔
        input ∈ st.inputHistory ∧ S < input.seq)
    ∧ (reconcile step st sx sy S).1.playerBody
        = some ((st.inputHistory.filter
              (fun input => decide (S < input.seq))).foldl
            (reapplyInput step)
            { b0 with
              x := Q2.ofRat sx, y := Q2.ofRat sy,
              vx := Q2.zero, vy := Q2.zero }) := by
  unfold reconcile
  rw [hb]
  refine ⟨rfl, ?_, ?_, rfl⟩
  · exact List.filter_sublist _
  · intro input
    simp [List.mem_filter]

/-- C7 witness: a history with seqs 1 and 3 reconciled against ack 2
keeps exactly the seq-3 input and replays it from the snapped body. -/
theorem C7_reconcile_replays_witness :
    (reconcile (fun b => b) c7St 10 20 2).1.inputHistory
        = c7St.inputHistory.filter (fun input => decide (2 < input.seq))
    ∧ (reconcile (fun b => b) c7St 10 20 2).1.playerBody
        = some ((c7St.inputHistory.filter
              (fun input => decide (2 < input.seq))).foldl
            (reapplyInput (fun b => b))
            { c7Body with
              x := Q2.ofRat 10, y := Q2.ofRat 20,
              vx := Q2.zero, vy := Q2.zero }) := by
  have h := C7_reconcile_replays (fun b => b) c7St c7Body 10 20 2 rfl
  exact ⟨h.1, h.2.2.2⟩

/-- A view step for a map entry with a different id does not change
whether `id` is in the view. -/
theorem viewStep_other (nearby : List String) (acc : StateView)
    (q : String × Player) (id : String) (hne : q.1 ≠ id) :
    (id ∈ (viewStep nearby acc q).playerIds ↔ id ∈ acc.playerIds) := by
  unfold viewStep
  split_ifs <;>
    simp [List.mem_append, List.mem_filter, Ne.symm hne]

/-- Folding view steps over entries none of which carries `id` does
not change whether `id` is in the view. -/
theorem fold_viewStep_stable (nearby : List String)
    (ps : List (String × Player)) (v : StateView) (id : String)
    (h : ∀ q ∈ ps, q.1 ≠ id) :
    (id ∈ (ps.foldl (viewStep nearby) v).playerIds ↔ id ∈ v.playerIds) := by
  induction ps generalizing v with
  | nil => exact Iff.rfl
  | cons q rest ih =>
    rw [List.foldl_cons]
    exact (ih (viewStep nearby v q)
        (fun r hr => h r (List.mem_cons_of_mem _ hr))).trans
      (viewStep_other nearby v q id (h q (List.mem_cons_self ..)))

/-- Membership after the add/remove loop: every id present at the end
is either a nearby candidate or was present before and is not a key of
the iterated map. -/
theorem fold_viewStep_mem (nearby : List String)
    (ps : List (String × Player)) (v : StateView) (id : String) :
    id ∈ (ps.foldl (viewStep nearby) v).playerIds →
    id ∈ nearby ∨ ((∀ q ∈ ps, q.1 ≠ id) ∧ id ∈ v.playerIds) := by
  induction ps generalizing v with
  | nil =>
    intro h
    exact Or.inr ⟨fun q hq => absurd hq (List.not_mem_nil q), h⟩
  | cons q rest ih =>
    intro h
    rw [List.foldl_cons] at h
    rcases ih (viewStep nearby v q) h with hnear | ⟨hrest, hmem⟩
    · exact Or.inl hnear
    · by_cases hq : q.1 = id
      · by_cases hn : q.1 ∈ nearby
        · rw [hq] at hn; exact Or.inl hn
        · exfalso
          unfold viewStep at hmem
          rw [if_neg hn] at hmem
          by_cases hin : q.1 ∈ v.playerIds
          · rw [if_pos hin] at hmem
            rw [← hq] at hmem
            simp [List.mem_filter] at hmem
          · rw [if_neg hin] at hmem
            rw [hq] at hin
            exact hin hmem
      · refine Or.inr ⟨?_, (viewStep_other nearby v q id hq).mp hmem⟩
        intro r hr
        rcases List.mem_cons.mp hr with rfl | hr'
        · exact hq
        · exact hrest r hr'

/-- A key absent from every entry of an association list has no
lookup. -/
theorem lookup_eq_none_of_keys (ps : List (String × Player)) (id : String)
    (h : ∀ q ∈ ps, q.1 ≠ id) : ps.lookup id = none := by
  induction ps with
  | nil => rfl
  | cons q rest ih =>
    obtain ⟨k, v⟩ := q
    have hk : (id == k) = false :=
      beq_eq_false_iff_ne.mpr (Ne.symm (h (k, v) (List.mem_cons_self ..)))
    simp only [List.lookup, hk]
    exact ih (fun r hr => h r (List.mem_cons_of_mem _ hr))

/-- Unfolding of the bullet-visibility step. -/
theorem bulletViewStep_eq (bullet : Bullet) (bulletId : String)
    (cs : List (String × StateView)) (q : String × Player) :
    bulletViewStep bullet bulletId cs q
      = if (bullet.x - q.2.x) * (bullet.x - q.2.x)
            + (bullet.y - q.2.y) * (bullet.y - q.2.y)
            ≤ Server.VIEW_DISTANCE * Server.VIEW_DISTANCE then
          cs.map (fun c => if c.1 = q.1 then (c.1, c.2.addBullet bulletId) else c)
        else cs := rfl

/-- Membership after the bullet-visibility fold: a client holding the
bullet either held it already or its player is within `VIEW_DISTANCE`
of the spawn. -/
theorem addBulletFold_mem (bullet : Bullet) (bulletId : String)
    (ps : List (String × Player)) :
    ∀ (cs : List (String × StateView)) (c' : String × StateView),
      c' ∈ ps.foldl (bulletViewStep bullet bulletId) cs →
      bulletId ∈ c'.2.bulletIds →
      (∃ c ∈ cs, c.1 = c'.1 ∧ bulletId ∈ c.2.bulletIds) ∨
      ∃ p, (c'.1, p) ∈ ps ∧
        (bullet.x - p.x) * (bullet.x - p.x) + (bullet.y - p.y) * (bullet.y - p.y)
          ≤ Server.VIEW_DISTANCE * Server.VIEW_DISTANCE := by
  induction ps with
  | nil =>
    intro cs c' hc hb
    exact Or.inl ⟨c', hc, rfl, hb⟩
  | cons q rest ih =>
    intro cs c' hc hb
    rw [List.foldl_cons] at hc
    rcases ih (bulletViewStep bullet bulletId cs q) c' hc hb with
      ⟨c, hcmem, heq, hbid⟩ | ⟨p, hp, hrange⟩
    · rw [bulletViewStep_eq] at hcmem
      by_cases hr : (bullet.x - q.2.x) * (bullet.x - q.2.x)
          + (bullet.y - q.2.y) * (bullet.y - q.2.y)
          ≤ Server.VIEW_DISTANCE * Server.VIEW_DISTANCE
      · rw [if_pos hr] at hcmem
        obtain ⟨c0, hc0, hmap⟩ := List.mem_map.mp hcmem
        by_cases hkey : c0.1 = q.1
        · right
          refine ⟨q.2, ?_, hr⟩
          have hc1 : c.1 = q.1 := by
            rw [← hmap]
            simp [hkey]
          rw [← heq, hc1]
          exact List.mem_cons_self ..
        · have hceq : c = c0 := by
            rw [← hmap]
            simp [hkey]
          rw [hceq] at heq hbid
          exact Or.inl ⟨c0, hc0, heq, hbid⟩
      · rw [if_neg hr] at hcmem
        exact Or.inl ⟨c, hcmem, heq, hbid⟩
    · exact Or.inr ⟨p, List.mem_cons_of_mem _ hp, hrange⟩

/-- C8, counterexample: players A at (0,0) and B at (1500,0).  With
only these two 2 by 2 rectangles inserted and `maxObjects = 2` the
quadtree root never splits, so the retrieval for A reports both
players; the refresh then replicates B to A although their Euclidean
distance is 1500, far beyond `VIEW_DISTANCE = 600`.  The code applies
no distance filter of its own to the reported candidates. -/
theorem C8_counterexample :
    (updateVisibility c8Retrieve c8Players [("A", c8ViewA)]).lookup "A"
        = some ⟨["A", "B"], []⟩
    ∧ Server.VIEW_DISTANCE ^ 2
        < distSq ⟨c8A.x, c8A.y⟩ ⟨c8B.x, c8B.y⟩
    ∧ "B" ≠ "A" := by
  refine ⟨by decide, ?_, by decide⟩
  norm_num [distSq, c8A, c8B, newPlayer, Server.VIEW_DISTANCE]

/-- C8, amended: after a visibility refresh, every current player id
in a client view belongs to the candidate set the spatial index
reported for the client player; the library guarantees only that this
set contains the inserted rectangles overlapping the 2 * VIEW_DISTANCE
query square, never that it contains nothing else (an unsplit node
reports every player, whatever its distance), so no Euclidean
VIEW_DISTANCE bound holds for replicated players; ids that are not
keys of the players map may also survive from the previous view
(departed players are never removed).  A bullet appears in a view at
spawn only for clients whose player is within Euclidean
`VIEW_DISTANCE` of the spawn position (or that already held it).  The
own player is in the view from `onJoin` on. -/
theorem C8_view_superset :
    (∀ (nearby : List String) (players : List (String × Player))
        (v : StateView) (id : String),
        id ∈ (updateClientView nearby players v).playerIds →
        id ∈ nearby ∨
          (players.lookup id = none ∧ id ∈ v.playerIds))
    ∧ (∀ (players : List (String × Player)) (clients : List (String × StateView))
        (bullet : Bullet) (bulletId : String) (c' : String × StateView),
        c' ∈ addBulletToViews players clients bullet bulletId →
        bulletId ∈ c'.2.bulletIds →
        (∃ c ∈ clients, c.1 = c'.1 ∧ bulletId ∈ c.2.bulletIds) ∨
        ∃ p, (c'.1, p) ∈ players ∧
          (bullet.x - p.x) * (bullet.x - p.x)
            + (bullet.y - p.y) * (bullet.y - p.y)
            ≤ Server.VIEW_DISTANCE * Server.VIEW_DISTANCE)
    ∧ (∀ sid : String, sid ∈ (initialView sid).playerIds) := by
  refine ⟨?_, ?_, ?_⟩
  · intro nearby players v id h
    rcases fold_viewStep_mem nearby players v id h with
      hnear | ⟨hkeys, hmem⟩
    · exact Or.inl hnear
    · exact Or.inr ⟨lookup_eq_none_of_keys players id hkeys, hmem⟩
  · intro players clients bullet bulletId c' hc hb
    exact addBulletFold_mem bullet bulletId players clients c' hc hb
  · intro sid
    exact List.mem_cons_self ..

/-- C8 witness: B is among the candidates the index reported for A,
and the bullet granted to A at spawn satisfies the range bound. -/
theorem C8_view_superset_witness :
    ("B" ∈ c8Retrieve c8A ∨
      (c8Players.lookup "B" = none ∧ "B" ∈ c8ViewA.playerIds))
    ∧ ((∃ c ∈ [("A", c8ViewA)], c.1 = c8Cp.1 ∧ "b0" ∈ c.2.bulletIds) ∨
        ∃ p, (c8Cp.1, p) ∈ c8Players ∧
          (c8Bullet.x - p.x) * (c8Bullet.x - p.x)
            + (c8Bullet.y - p.y) * (c8Bullet.y - p.y)
            ≤ Server.VIEW_DISTANCE * Server.VIEW_DISTANCE)
    ∧ "A" ∈ (initialView "A").playerIds := by
  refine ⟨?_, ?_, C8_view_superset.2.2 "A"⟩
  · exact C8_view_superset.1 (c8Retrieve c8A) c8Players c8ViewA "B"
      (by decide)
  · refine C8_view_superset.2.1 c8Players [("A", c8ViewA)] c8Bullet "b0" c8Cp
      ?_ (by decide)
    norm_num [addBulletToViews, bulletViewStep, StateView.addBullet,
      c8Players, c8A, c8B, c8ViewA, c8Bullet, c8Cp, initialView, newPlayer,
      Server.VIEW_DISTANCE, List.foldl_cons]

/-- If no later snapshot is newer than the render time, both cursors
of the pair search end on the last element. -/
theorem findPair_all_le (rt : Int) (rest : List Snapshot) :
    ∀ prev : Snapshot, (∀ sn ∈ rest, sn.timestamp ≤ rt) →
      findPair rt prev rest = (rest.getLastD prev, rest.getLastD prev) := by
  induction rest with
  | nil => intro prev _; rfl
  | cons sn rest ih =>
    intro prev hle
    have h1 : ¬ (rt < sn.timestamp) :=
      not_lt.mpr (hle sn (List.mem_cons_self ..))
    show (if rt < sn.timestamp then (prev, sn) else findPair rt sn rest) = _
    rw [if_neg h1, List.getLastD_cons]
    exact ih sn (fun r hr => hle r (List.mem_cons_of_mem _ hr))

/-- In a buffer with non-decreasing timestamps the last element has
the newest timestamp. -/
theorem pairwise_le_getLastD (l : List Snapshot)
    (hl : List.Pairwise (fun a b : Snapshot => a.timestamp ≤ b.timestamp) l) :
    ∀ (d : Snapshot), ∀ sn ∈ l, sn.timestamp ≤ (l.getLastD d).timestamp := by
  induction l with
  | nil => intro d sn h; cases h
  | cons x t ih =>
    intro d sn hmem
    rw [List.getLastD_cons]
    obtain ⟨hx, ht⟩ := List.pairwise_cons.mp hl
    rcases List.mem_cons.mp hmem with rfl | hmem'
    · cases t with
      | nil => exact le_refl _
      | cons y t' =>
        exact le_trans (hx y (List.mem_cons_self ..))
          (ih ht sn y (List.mem_cons_self ..))
    · exact ih ht x sn hmem'

/-- C9: the interpolator returns nothing for an empty buffer, the sole
snapshot of a singleton buffer unchanged, and, whenever the render
time (now minus the 100 ms delay) is at or past the newest timestamp
of a chronologically ordered buffer, the newest snapshot unchanged --
no extrapolation past the newest snapshot. -/
theorem C9_interpolator_edges :
    (∀ now : Int, getInterpolatedState now [] = none)
    ∧ (∀ (now : Int) (sn : Snapshot),
        getInterpolatedState now [sn] = some ⟨sn.x, sn.y, sn.angle⟩)
    ∧ (∀ (now : Int) (buffer : List Snapshot) (d : Snapshot),
        buffer ≠ [] →
        List.Pairwise (fun a b : Snapshot => a.timestamp ≤ b.timestamp) buffer →
        (buffer.getLastD d).timestamp ≤ now - interpolationDelay →
        getInterpolatedState now buffer
          = some ⟨(buffer.getLastD d).x, (buffer.getLastD d).y,
              (buffer.getLastD d).angle⟩) := by
  refine ⟨fun now => rfl, fun now sn => rfl, ?_⟩
  intro now buffer d hne hpw hlast
  match buffer, hne with
  | [sn], _ => rfl
  | b0 :: b1 :: rest, _ =>
    have hcond : ¬ (b0 :: b1 :: rest).length < 2 := by
      simp [List.length_cons]
    have hall : ∀ sn ∈ b1 :: rest, sn.timestamp ≤ now - interpolationDelay := by
      intro sn hm
      refine le_trans ?_ hlast
      exact pairwise_le_getLastD _ hpw d sn (List.mem_cons_of_mem _ hm)
    unfold getInterpolatedState
    rw [if_neg hcond]
    simp only [findPair_all_le (now - interpolationDelay) (b1 :: rest) b0 hall]
    rw [if_pos (sub_self ((((b1 :: rest).getLastD b0).timestamp : ℚ)))]
    simp only [List.getLastD_cons]

/-- C9 witness: a two-snapshot ordered buffer rendered 200 ms after
the newest snapshot yields that newest snapshot. -/
theorem C9_interpolator_edges_witness :
    getInterpolatedState 1300 c9Buf
      = some ⟨(c9Buf.getLastD c9S1).x, (c9Buf.getLastD c9S1).y,
          (c9Buf.getLastD c9S1).angle⟩
    ∧ getInterpolatedState 1300 [] = none
    ∧ getInterpolatedState 1300 [c9S1] = some ⟨c9S1.x, c9S1.y, c9S1.angle⟩ := by
  refine ⟨?_, C9_interpolator_edges.1 1300, C9_interpolator_edges.2.1 1300 c9S1⟩
  exact C9_interpolator_edges.2.2 1300 c9Buf c9S1 (by decide)
    (by decide) (by decide)
